import Mathlib

/-!
Verification of the hierarchical line-item editor and price-comparison
logic of `src/streamlit_app.py`.

The editor's row store is a pandas DataFrame whose rows carry the columns
`_id`, `_parentId`, `_order`, `_group`, `type`, `supplier`, `brand`,
`code`, `description`, `Power Type`, `price`.  We embed it as a `List Row`
in positional (DataFrame index) order; all the mutation helpers of the
source reset the index, so positional order is well defined.  Prices are
embedded as rationals.
-/

namespace PriceAnalysis

/-- One row of the editor DataFrame (columns `_id`, `_parentId`, `_order`,
`_group`, `type`, `supplier`, `brand`, `code`, `description`,
`Power Type`, `price`). -/
structure Row where
  id : String
  parentId : String
  order : Nat
  group : String
  type : String
  supplier : String
  brand : String
  code : String
  description : String
  powerType : String
  price : ℚ
deriving DecidableEq

/-- One row of the raw uploaded flat table, before the editor columns are
added by `init_editor_structure`. -/
structure RawRow where
  type : String
  supplier : String
  brand : String
  code : String
  description : String
  powerType : String
  price : ℚ
deriving DecidableEq

/-- Index of the first row satisfying `p`, i.e. the value of
`df.index[mask][0]` in the source (pandas returns all matching positional
indices; the source always takes element `[0]`). -/
def firstIdx (p : Row → Bool) : List Row → Option Nat
  | [] => none
  | r :: rest => if p r then some 0 else (firstIdx p rest).map (· + 1)

/-- The editor row `init_editor_structure` builds for the raw row `rr`
sitting at positional index `k`. -/
def builtRow (ids : Nat → String) (k : Nat) (rr : RawRow) : Row :=
  { id := ids k, parentId := "", order := k,
    group := rr.code ++ "|" ++ rr.powerType,
    type := rr.type, supplier := rr.supplier, brand := rr.brand,
    code := rr.code, description := rr.description,
    powerType := rr.powerType, price := rr.price }

/-- Helper for `init_editor_structure`: builds the editor rows for the raw
rows, assigning `_order` (and the fresh `_id`) from the running positional
index. -/
def initRowsFrom (ids : Nat → String) : Nat → List RawRow → List Row
  | _, [] => []
  | i, rr :: rest => builtRow ids i rr :: initRowsFrom ids (i + 1) rest

/-- Embeds `init_editor_structure` (src lines 18-36) on an input table that
does not yet carry the editor columns: each row gets a fresh `_id`
(modelled by the id supply `ids`, one per positional index, standing for
`str(uuid.uuid4())[:8]`), `_parentId = ""`, `_order = ` its positional
index (`list(range(len(df)))`), and `_group = code + "|" + Power Type`. -/
def init_editor_structure (ids : Nat → String) (raw : List RawRow) : List Row :=
  initRowsFrom ids 0 raw

/-- Helper for the `df["_order"] = list(range(len(df)))` assignments of
`reorder_row` and `delete_row`, generalised over the starting index. -/
def reassignOrderFrom : Nat → List Row → List Row
  | _, [] => []
  | i, r :: rest => { r with order := i } :: reassignOrderFrom (i + 1) rest

/-- The assignment `df["_order"] = list(range(len(df)))`. -/
def reassignOrder (df : List Row) : List Row :=
  reassignOrderFrom 0 df

/-- The row swap `df.iloc[[i, j]] = df.iloc[[j, i]].values` (swaps the two
whole rows, every column included). -/
def swapRows (df : List Row) (i j : Nat) : List Row :=
  match df.get? i, df.get? j with
  | some a, some b => (df.set i b).set j a
  | _, _ => df

/-- Embeds `reorder_row` (src lines 43-59): locate the first row whose
`_id` matches (missing id: return the store untouched); swap it with its
positional neighbour when one exists in the requested direction; then
rewrite `_order` to `0..n-1` positionally. -/
def reorder_row (df : List Row) (rowId direction : String) : List Row :=
  match firstIdx (fun r => r.id == rowId) df with
  | none => df
  | some idx =>
      let df2 :=
        if direction = "up" ∧ 0 < idx then
          swapRows df idx (idx - 1)
        else if direction = "down" ∧ idx + 1 < df.length then
          swapRows df idx (idx + 1)
        else df
      reassignOrder df2

/-- Embeds `convert_type` (src lines 62-78): toggle the `type` field of
the first row whose `_id` matches between `"item"` and `"subitem"`
(any value other than `"item"` becomes `"item"`); missing id is a no-op. -/
def convert_type (df : List Row) (rowId : String) : List Row :=
  match firstIdx (fun r => r.id == rowId) df with
  | none => df
  | some idx =>
      match df.get? idx with
      | none => df
      | some r =>
          df.set idx { r with type := if r.type = "item" then "subitem" else "item" }

/-- Embeds `delete_row` (src lines 81-86): drop every row whose `_id`
matches, then rewrite `_order` to `0..n-1` positionally. -/
def delete_row (df : List Row) (rowId : String) : List Row :=
  reassignOrder (df.filter (fun r => r.id != rowId))

/-- The inner assignment loop of `spread_row`: overwrite every column of
`target` except `_id`, `_parentId`, `_order` with the source row's
values. -/
def copyFrom (source target : Row) : Row :=
  { target with
    group := source.group, type := source.type, supplier := source.supplier,
    brand := source.brand, code := source.code,
    description := source.description, powerType := source.powerType,
    price := source.price }

/-- Embeds `spread_row` (src lines 89-109): capture the first row whose
`_id` equals `sourceId` (missing source: no-op); then for each target id,
find the first matching row and overwrite all of its columns except
`_id`, `_parentId`, `_order` with the captured source values (missing
targets are skipped). -/
def spread_row (df : List Row) (sourceId : String) (targetIds : List String) : List Row :=
  match df.find? (fun r => r.id == sourceId) with
  | none => df
  | some source =>
      targetIds.foldl (fun acc targetId =>
        match firstIdx (fun r => r.id == targetId) acc with
        | none => acc
        | some tidx =>
            match acc.get? tidx with
            | none => acc
            | some t => acc.set tidx (copyFrom source t)) df

/-- Embeds the "Add Row" handler (src lines 655-681): a subitem with a
non-empty selected parent gets `_parentId` = that parent and `_order` =
(max `_order` among rows whose `_parentId` equals the parent) + 1, or 0
when there are none; otherwise `_parentId = ""` and `_order = 0`.  The new
row is appended at the end of the store. -/
def add_row (df : List Row) (newId newType supplier brand code description powerType : String)
    (price : ℚ) (parentSel : String) : List Row :=
  let pr : String × Nat :=
    if newType = "subitem" ∧ parentSel ≠ "" then
      let existing := df.filter (fun r => r.parentId == parentSel)
      (parentSel,
        if existing.isEmpty then 0 else ((existing.map Row.order).foldl max 0) + 1)
    else ("", 0)
  df ++ [{ id := newId, parentId := pr.1, order := pr.2,
           group := code ++ "|" ++ powerType, type := newType,
           supplier := supplier, brand := brand, code := code,
           description := description, powerType := powerType, price := price }]

/-- First-seen de-duplication, the order `pandas.Series.unique` reports
distinct values in. -/
def uniqueFirstSeen (l : List String) : List String :=
  l.foldl (fun acc s => if s ∈ acc then acc else acc ++ [s]) []

/-- Per-supplier post-tax total over the rows of one product group:
`sup_items["price"].sum() * (1 + tax_rate)` with `tax_rate =
tax_percent / 100` (src lines 910-911). -/
def supplierTotal (rows : List Row) (taxPercent : ℚ) (sup : String) : ℚ :=
  (((rows.filter (fun r => r.supplier == sup)).map Row.price).sum) * (1 + taxPercent / 100)

/-- The winner-selection loop of src lines 907-914: scan the suppliers in
order keeping the current winner and its total; `none` stands for the
initial `float('inf')`, and the update fires only on a strictly smaller
total. -/
def winnerLoop (totals : String → ℚ) : String → Option ℚ → List String → String
  | w, _, [] => w
  | w, minTotal, sup :: rest =>
      match minTotal with
      | none => winnerLoop totals sup (some (totals sup)) rest
      | some m =>
          if totals sup < m then winnerLoop totals sup (some (totals sup)) rest
          else winnerLoop totals w (some m) rest

/-- Embeds the winner determination for one product group (src lines
902-914): suppliers are the first-seen-distinct `supplier` values of the
group's rows, each supplier's total is its price sum times
`1 + tax/100`, and the winner is picked by `winnerLoop` starting from
`("", inf)`. -/
def winner_supplier (rows : List Row) (taxPercent : ℚ) : String :=
  winnerLoop (supplierTotal rows taxPercent) "" none (uniqueFirstSeen (rows.map Row.supplier))

/-- Row constructor with all fields positional, for concrete stores. -/
def mkRow (id parentId : String) (order : Nat)
    (group type supplier brand code description powerType : String)
    (price : ℚ) : Row :=
  { id := id, parentId := parentId, order := order, group := group,
    type := type, supplier := supplier, brand := brand, code := code,
    description := description, powerType := powerType, price := price }

/-- Store with one Item and one Subitem attached to it, for claim C1. -/
def storeC1 : List Row :=
  [mkRow "a" "" 0 "C1|PH" "item" "SupA" "BX" "C1" "Unit" "PH" 100,
   mkRow "b" "a" 1 "C1|PH" "subitem" "SupA" "BX" "C1" "Accessory" "PH" 20]

/-- Source row for the spread of claim C2. -/
def c2src : Row := mkRow "s" "" 0 "X|P" "item" "SupA" "BA" "X" "Acc" "P" 20

/-- Target Item for the spread of claim C2, with its own supplier `SupB`. -/
def c2tgt : Row := mkRow "t" "" 1 "Y|Q" "item" "SupB" "BB" "Y" "Unit" "Q" 90

/-- Store holding the spread source and one target Item, for claim C2. -/
def storeC2 : List Row := [c2src, c2tgt]

/-- Store with a single Item: no other Item shares its productKey, for
claim C3. -/
def storeC3 : List Row :=
  [mkRow "a" "" 0 "C1|PH" "item" "SupA" "BX" "C1" "Unit" "PH" 100]

/-- Id supply for the builder input of claim C4. -/
def c4ids : Nat → String := fun n => "r" ++ toString n

/-- Raw subitem row for the builder input of claim C4. -/
def c4sub : RawRow :=
  { type := "subitem", supplier := "SupA", brand := "BX", code := "",
    description := "Accessory", powerType := "", price := 20 }

/-- Raw flat table whose second row is a subitem preceded by an item, for
claim C4. -/
def rawC4 : List RawRow :=
  [{ type := "item", supplier := "SupA", brand := "BX", code := "C1",
     description := "Unit", powerType := "PH", price := 100 },
   c4sub]

/-- Id supply for the builder input of claim C5. -/
def c5ids : Nat → String := fun n => "r" ++ toString n

/-- Raw flat table with a single item row, for claim C5. -/
def rawC5 : List RawRow :=
  [{ type := "item", supplier := "SupA", brand := "BX", code := "C1",
     description := "Unit", powerType := "PH", price := 100 }]

/-- A store reached from a Hierarchy Builder output by one insert (a
Subitem under the built Item `r0`) followed by one delete of `r0`, for
claim C5. -/
def storeC5 : List Row :=
  delete_row
    (add_row (init_editor_structure c5ids rawC5)
      "b" "subitem" "SupA" "BX" "C1" "Accessory" "PH" 20 "r0")
    "r0"

/-- Store whose second row is the only Item of its product group (hence
the first row of its sibling set) but sits at positional index 1, for
claim C7. -/
def storeC7 : List Row :=
  [mkRow "a" "" 0 "C1|PH" "item" "SupA" "BX" "C1" "Unit" "PH" 100,
   mkRow "b" "" 1 "C2|PL" "item" "SupB" "BY" "C2" "Other" "PL" 50]

/-- Store with a single row whose `_order` is not positional, for claim
C8. -/
def storeC8 : List Row :=
  [mkRow "x" "" 5 "C1|PH" "item" "SupA" "BX" "C1" "Unit" "PH" 100]

/-- Store with a single row whose `_order` is not positional, for claim
C9. -/
def storeC9 : List Row :=
  [mkRow "x" "" 7 "C1|PH" "item" "SupA" "BX" "C1" "Unit" "PH" 100]

/-- Witness store for claim C3. -/
def storeW3 : List Row :=
  [mkRow "a" "" 0 "C1|PH" "item" "SupA" "BX" "C1" "Unit" "PH" 100,
   mkRow "b" "a" 1 "C1|PH" "subitem" "SupA" "BX" "C1" "Accessory" "PH" 20]

/-- The row of `storeW3` at positional index 0. -/
def w3row : Row := mkRow "a" "" 0 "C1|PH" "item" "SupA" "BX" "C1" "Unit" "PH" 100

/-- Witness store for claim C6: two Items of one group with totals 110
and 99 at 10% tax. -/
def storeW6 : List Row :=
  [mkRow "a" "" 0 "C1|PH" "item" "SupA" "BX" "C1" "Unit" "PH" 100,
   mkRow "b" "" 1 "C1|PH" "item" "SupB" "BX" "C1" "Unit" "PH" 90]

/-- Witness store for claim C7, with positional `_order` values. -/
def storeW7 : List Row :=
  [mkRow "a" "" 0 "C1|PH" "item" "SupA" "BX" "C1" "Unit" "PH" 100,
   mkRow "b" "" 1 "C1|PH" "item" "SupB" "BX" "C1" "Unit" "PH" 90]

/-- Witness store for claim C8, with positional `_order` values. -/
def storeW8 : List Row :=
  [mkRow "a" "" 0 "C1|PH" "item" "SupA" "BX" "C1" "Unit" "PH" 100]

/-- Witness store for claim C9. -/
def storeW9 : List Row :=
  [mkRow "a" "" 3 "C1|PH" "item" "SupA" "BX" "C1" "Unit" "PH" 100,
   mkRow "b" "" 3 "C1|PH" "item" "SupB" "BX" "C1" "Unit" "PH" 90]

/-- Witness store for claim C10. -/
def storeW10 : List Row :=
  [mkRow "p" "" 0 "C9|PL" "subitem" "SupC" "BZ" "C9" "Part" "PL" 7,
   mkRow "q" "" 1 "C9|PL" "item" "SupD" "BZ" "C9" "Base" "PL" 70]

/-- The row of `storeW10` at positional index 0. -/
def w10row : Row := mkRow "p" "" 0 "C9|PL" "subitem" "SupC" "BZ" "C9" "Part" "PL" 7

/-! ### Helper lemmas -/

/-- If `firstIdx` reports index `i`, the row stored there satisfies the
predicate. -/
theorem firstIdx_some {p : Row → Bool} :
    ∀ {l : List Row} {i : Nat},
      firstIdx p l = some i → ∃ r, l.get? i = some r ∧ p r = true := by
  intro l
  induction l with
  | nil => intro i h; simp [firstIdx] at h
  | cons r rest ih =>
    intro i h
    by_cases hp : p r
    · simp [firstIdx, hp] at h
      subst h
      exact ⟨r, rfl, hp⟩
    · simp [firstIdx, hp] at h
      obtain ⟨j, hj, hji⟩ := h
      subst hji
      obtain ⟨r', hget, hpr⟩ := ih hj
      exact ⟨r', by simpa using hget, hpr⟩

/-- When no row satisfies the predicate, `firstIdx` reports nothing. -/
theorem firstIdx_eq_none {p : Row → Bool} :
    ∀ {l : List Row}, (∀ r ∈ l, p r = false) → firstIdx p l = none := by
  intro l
  induction l with
  | nil => intro _; rfl
  | cons r rest ih =>
    intro h
    have hr : p r = false := h r (by simp)
    have hrest := ih (fun x hx => h x (List.mem_cons_of_mem _ hx))
    simp [firstIdx, hr, hrest]

/-- A satisfying member guarantees `firstIdx` reports some index. -/
theorem firstIdx_isSome_of_mem (p : Row → Bool) :
    ∀ {l : List Row} {r : Row}, r ∈ l → p r = true →
      ∃ i, firstIdx p l = some i := by
  intro l
  induction l with
  | nil => intro r h; simp at h
  | cons a rest ih =>
    intro r hmem hp
    by_cases ha : p a
    · exact ⟨0, by simp [firstIdx, ha]⟩
    · rcases List.mem_cons.mp hmem with h | h
      · subst h; rw [hp] at ha; exact absurd rfl ha
      · obtain ⟨j, hj⟩ := ih h hp
        exact ⟨j + 1, by simp [firstIdx, ha, hj]⟩

/-- Bundled form of `firstIdx_isSome_of_mem` for the id predicate. -/
theorem firstIdx_id_isSome {df : List Row} {r : Row} {rowId : String}
    (hr : r ∈ df) (hid : r.id = rowId) :
    ∃ i, firstIdx (fun r => r.id == rowId) df = some i :=
  firstIdx_isSome_of_mem (fun r => r.id == rowId) hr (beq_iff_eq.mpr hid)

/-- `reassignOrderFrom` keeps the length of the store. -/
theorem reassignOrderFrom_length :
    ∀ (i : Nat) (l : List Row), (reassignOrderFrom i l).length = l.length := by
  intro i l
  induction l generalizing i with
  | nil => rfl
  | cons r rest ih => simp [reassignOrderFrom, ih]

/-- The `_order` column written by `reassignOrderFrom i` is
`[i, i+1, ...]`. -/
theorem reassignOrderFrom_map_order :
    ∀ (i : Nat) (l : List Row),
      (reassignOrderFrom i l).map Row.order = List.range' i l.length := by
  intro i l
  induction l generalizing i with
  | nil => rfl
  | cons r rest ih => simp [reassignOrderFrom, List.range'_succ, ih]

/-- Rewriting `_order` positionally is the identity exactly on stores
whose `_order` column already is the positional range. -/
theorem reassignOrderFrom_eq_self :
    ∀ (i : Nat) (l : List Row),
      l.map Row.order = List.range' i l.length → reassignOrderFrom i l = l := by
  intro i l
  induction l generalizing i with
  | nil => intro _; rfl
  | cons r rest ih =>
    intro h
    rw [List.map_cons, List.length_cons, List.range'_succ] at h
    injection h with h1 h2
    rw [reassignOrderFrom, ih _ h2, ← h1]

/-- `reassignOrder` is the identity on stores with positional `_order`. -/
theorem reassignOrder_eq_self (df : List Row)
    (h : df.map Row.order = List.range df.length) : reassignOrder df = df := by
  rw [reassignOrder]
  exact reassignOrderFrom_eq_self 0 df (by rw [h, List.range_eq_range'])

/-- Any store just passed through `reassignOrder` has positional
`_order` values. -/
theorem reassignOrder_canonical (l : List Row) :
    (reassignOrder l).map Row.order = List.range (reassignOrder l).length := by
  rw [reassignOrder, reassignOrderFrom_length, List.range_eq_range']
  exact reassignOrderFrom_map_order 0 l

/-- Unfolding `reorder_row` when the target id is found at index `idx`. -/
theorem reorder_row_of_firstIdx_some (df : List Row) (rowId direction : String)
    (idx : Nat) (h : firstIdx (fun r => r.id == rowId) df = some idx) :
    reorder_row df rowId direction =
      reassignOrder
        (if direction = "up" ∧ 0 < idx then swapRows df idx (idx - 1)
         else if direction = "down" ∧ idx + 1 < df.length then
           swapRows df idx (idx + 1)
         else df) := by
  unfold reorder_row
  rw [h]

/-- Rows built by `initRowsFrom` read back positionally, with the running
index offset. -/
theorem initRowsFrom_get? (ids : Nat → String) :
    ∀ (raw : List RawRow) (i j : Nat) (rr : RawRow),
      raw.get? j = some rr →
      (initRowsFrom ids i raw).get? j = some (builtRow ids (i + j) rr) := by
  intro raw
  induction raw with
  | nil => intro i j rr h; simp at h
  | cons a rest ih =>
    intro i j rr h
    cases j with
    | zero =>
      simp at h
      subst h
      simp [initRowsFrom]
    | succ j' =>
      simp only [List.get?_cons_succ] at h
      have hrec := ih (i + 1) j' rr h
      have hidx : i + 1 + j' = i + (j' + 1) := by omega
      rw [initRowsFrom, List.get?_cons_succ, hrec, hidx]

/-! ### Claim C1 -/

/-- Claim C1 (code divergence): deleting the Item `a` from a store where
the Subitem `b` has `parentId = a` leaves `b` in the store (with its
`_order` rewritten positionally); the delete-confirmation dialog of the
source promises the subitems are deleted too, but `delete_row` removes
only the row whose `_id` matches. -/
theorem delete_row_no_cascade :
    delete_row storeC1 "a"
        = [mkRow "b" "a" 0 "C1|PH" "subitem" "SupA" "BX" "C1" "Accessory" "PH" 20] ∧
    (∃ r ∈ delete_row storeC1 "a", r.parentId = "a" ∧ r.type = "subitem") ∧
    (∀ r ∈ delete_row storeC1 "a", r.id ≠ "a") := by decide

/-! ### Claim C2 -/

/-- Claim C2 (code divergence): `spread_row` adds no rows at all; it
overwrites every column of each target row except `_id`, `_parentId` and
`_order` with the source row's values — here the target Item `t` keeps
id/parent/order but acquires the source's supplier `SupA`, description,
group, code and price, and the store length is unchanged. -/
theorem spread_row_overwrites_targets :
    spread_row storeC2 "s" ["t"]
        = [c2src, mkRow "t" "" 1 "X|P" "item" "SupA" "BA" "X" "Acc" "P" 20] ∧
    (spread_row storeC2 "s" ["t"]).length = storeC2.length := by decide

/-! ### Claim C3 -/

/-- Claim C3 counterexample: the store holds a single Item, so no other
Item shares its productKey and the claim demands the store be returned
unchanged; `convert_type` nevertheless turns the row into a subitem. -/
theorem convert_type_not_noop_without_target :
    convert_type storeC3 "a" ≠ storeC3 ∧
    (convert_type storeC3 "a").map Row.type = ["subitem"] ∧
    storeC3.length = 1 := by decide

/-- Claim C3 (amended): `convert_type` only toggles the `type` field of
the first row whose `_id` matches — children are not promoted, no
reattachment happens, the row's `_parentId` and `_order` and every other
row are untouched, and the toggle fires regardless of whether another
Item shares the productKey. -/
theorem convert_type_pointwise_frame (df : List Row) (rowId : String)
    (i : Nat) (r : Row)
    (hfind : firstIdx (fun r => r.id == rowId) df = some i)
    (hget : df.get? i = some r) :
    (convert_type df rowId).get? i
        = some { r with type := if r.type = "item" then "subitem" else "item" } ∧
    (∀ j, j ≠ i → (convert_type df rowId).get? j = df.get? j) := by
  have hconv : convert_type df rowId
      = df.set i { r with type := if r.type = "item" then "subitem" else "item" } := by
    unfold convert_type
    simp only [hfind, hget]
  have hlt : i < df.length := by
    rcases List.get?_eq_some.mp hget with ⟨h, _⟩
    exact h
  constructor
  · rw [hconv, List.get?_eq_getElem?, List.getElem?_set_self hlt]
  · intro j hj
    rw [hconv, List.get?_eq_getElem?, List.get?_eq_getElem? df,
      List.getElem?_set_ne (Ne.symm hj)]

/-- Witness for the amended C3 theorem at a concrete two-row store. -/
theorem convert_type_pointwise_frame_witness :
    firstIdx (fun r => r.id == "a") storeW3 = some 0 ∧
    storeW3.get? 0 = some w3row ∧
    ((convert_type storeW3 "a").get? 0
        = some { w3row with type := if w3row.type = "item" then "subitem" else "item" } ∧
      (∀ j, j ≠ 0 → (convert_type storeW3 "a").get? j = storeW3.get? j)) :=
  ⟨by decide, by decide,
    convert_type_pointwise_frame storeW3 "a" 0 w3row (by decide) (by decide)⟩

/-! ### Claim C4 -/

/-- Claim C4 counterexample: in the built store, the subitem row at index
1 has `_parentId = ""`, not the id `r0` of the most recent preceding item
row — the builder infers no parent links at all. -/
theorem builder_no_parent_link :
    ((init_editor_structure c4ids rawC4).get? 1).map Row.parentId = some "" ∧
    ((init_editor_structure c4ids rawC4).get? 0).map Row.id = some "r0" ∧
    ((init_editor_structure c4ids rawC4).get? 1).map Row.parentId
        ≠ ((init_editor_structure c4ids rawC4).get? 0).map Row.id := by decide

/-- Claim C4 (amended): every row of the built store — items and subitems
alike — gets `_parentId = ""`, `_order` = its positional index, a fresh
`_id` from the id supply, and `_group = code|powerType`; no subitem is
linked to any preceding item. -/
theorem init_editor_structure_fields (ids : Nat → String) (raw : List RawRow)
    (j : Nat) (rr : RawRow) (h : raw.get? j = some rr) :
    (init_editor_structure ids raw).get? j = some (builtRow ids j rr) ∧
    (builtRow ids j rr).parentId = "" ∧
    (builtRow ids j rr).order = j ∧
    (builtRow ids j rr).id = ids j := by
  refine ⟨?_, rfl, rfl, rfl⟩
  rw [init_editor_structure]
  have hrec := initRowsFrom_get? ids raw 0 j rr h
  simpa using hrec

/-- Witness for the amended C4 theorem at the concrete raw table. -/
theorem init_editor_structure_fields_witness :
    rawC4.get? 1 = some c4sub ∧
    ((init_editor_structure c4ids rawC4).get? 1 = some (builtRow c4ids 1 c4sub) ∧
      (builtRow c4ids 1 c4sub).parentId = "" ∧
      (builtRow c4ids 1 c4sub).order = 1 ∧
      (builtRow c4ids 1 c4sub).id = c4ids 1) :=
  ⟨by decide, init_editor_structure_fields c4ids rawC4 1 c4sub (by decide)⟩

/-! ### Claim C5 -/

/-- Claim C5 (code divergence): starting from a Hierarchy Builder output
with one Item `r0`, inserting a Subitem under `r0` and then deleting `r0`
reaches a store in which a `_parentId` still reads `r0` while no row with
`_id = r0` exists — the no-dangling-parents invariant fails because
`delete_row` does not cascade. -/
theorem dangling_parent_reachable :
    (∃ r ∈ storeC5, r.parentId = "r0" ∧ r.type = "subitem") ∧
    (∀ r ∈ storeC5, r.id ≠ "r0") := by decide

/-! ### Claim C6 -/

/-- Unfolding equation of `winnerLoop` on the empty supplier list. -/
theorem winnerLoop_nil (totals : String → ℚ) (w : String) (m : Option ℚ) :
    winnerLoop totals w m [] = w := rfl

/-- Unfolding equation of `winnerLoop` on the first supplier (the
`float('inf')` state). -/
theorem winnerLoop_cons_none (totals : String → ℚ) (w sup : String)
    (rest : List String) :
    winnerLoop totals w none (sup :: rest)
      = winnerLoop totals sup (some (totals sup)) rest := rfl

/-- Unfolding equation of `winnerLoop` once a minimum is held. -/
theorem winnerLoop_cons_some (totals : String → ℚ) (w sup : String) (m : ℚ)
    (rest : List String) :
    winnerLoop totals w (some m) (sup :: rest)
      = if totals sup < m then winnerLoop totals sup (some (totals sup)) rest
        else winnerLoop totals w (some m) rest := rfl

/-- The scan invariant of the winner loop: starting from current winner
`w` holding its own total, the result is the first element of `w :: l`
attaining the minimum total — every element strictly before it has a
strictly larger total, and no element beats it. -/
theorem winnerLoop_invariant (totals : String → ℚ) :
    ∀ (l : List String) (w : String),
      ∃ l1 l2,
        w :: l = l1 ++ winnerLoop totals w (some (totals w)) l :: l2 ∧
        (∀ s ∈ l1, totals (winnerLoop totals w (some (totals w)) l) < totals s) ∧
        (∀ s ∈ w :: l, totals (winnerLoop totals w (some (totals w)) l) ≤ totals s) := by
  intro l
  induction l with
  | nil =>
    intro w
    exact ⟨[], [], rfl, by simp, by simp [winnerLoop_nil]⟩
  | cons s rest ih =>
    intro w
    by_cases h : totals s < totals w
    · have hw : winnerLoop totals w (some (totals w)) (s :: rest)
          = winnerLoop totals s (some (totals s)) rest := by
        rw [winnerLoop_cons_some, if_pos h]
      obtain ⟨l1, l2, hdec, hstrict, hle⟩ := ih s
      refine ⟨w :: l1, l2, ?_, ?_, ?_⟩
      · rw [hw, List.cons_append, ← hdec]
      · intro x hx
        rw [hw]
        rcases List.mem_cons.mp hx with hx | hx
        · subst hx
          exact lt_of_le_of_lt (hle s (List.mem_cons_self s rest)) h
        · exact hstrict x hx
      · intro x hx
        rw [hw]
        rcases List.mem_cons.mp hx with hx | hx
        · subst hx
          exact le_of_lt (lt_of_le_of_lt (hle s (List.mem_cons_self s rest)) h)
        · exact hle x hx
    · have h' : totals w ≤ totals s := le_of_not_lt h
      have hw : winnerLoop totals w (some (totals w)) (s :: rest)
          = winnerLoop totals w (some (totals w)) rest := by
        rw [winnerLoop_cons_some, if_neg h]
      obtain ⟨l1, l2, hdec, hstrict, hle⟩ := ih w
      cases l1 with
      | nil =>
        rw [List.nil_append] at hdec
        injection hdec with h1 h2
        refine ⟨[], s :: rest, ?_, ?_, ?_⟩
        · rw [hw, List.nil_append, ← h1]
        · intro x hx
          simp at hx
        · intro x hx
          rw [hw, ← h1]
          rcases List.mem_cons.mp hx with hx | hx
          · subst hx
            exact le_refl _
          rcases List.mem_cons.mp hx with hx2 | hx2
          · subst hx2
            exact h'
          · have hxw := hle x (List.mem_cons_of_mem w hx2)
            rw [← h1] at hxw
            exact hxw
      | cons a l1' =>
        rw [List.cons_append] at hdec
        injection hdec with h1 h2
        have hrw : totals (winnerLoop totals w (some (totals w)) rest) < totals w := by
          have ha := hstrict a (List.mem_cons_self a l1')
          rw [← h1] at ha
          exact ha
        refine ⟨w :: s :: l1', l2, ?_, ?_, ?_⟩
        · rw [hw, List.cons_append, List.cons_append, ← h2]
        · intro x hx
          rw [hw]
          rcases List.mem_cons.mp hx with hx | hx
          · subst hx
            exact hrw
          rcases List.mem_cons.mp hx with hx2 | hx2
          · subst hx2
            exact lt_of_lt_of_le hrw h'
          · exact hstrict x (List.mem_cons_of_mem a hx2)
        · intro x hx
          rw [hw]
          rcases List.mem_cons.mp hx with hx | hx
          · subst hx
            exact le_of_lt hrw
          rcases List.mem_cons.mp hx with hx2 | hx2
          · subst hx2
            exact le_of_lt (lt_of_lt_of_le hrw h')
          · exact hle x (List.mem_cons_of_mem w hx2)

/-- The first-seen de-duplication never shrinks its accumulator. -/
theorem uniqueFirstSeen_aux_length :
    ∀ (l acc : List String),
      acc.length ≤ (l.foldl (fun acc s => if s ∈ acc then acc else acc ++ [s]) acc).length := by
  intro l
  induction l with
  | nil => intro acc; simp
  | cons s rest ih =>
    intro acc
    rw [List.foldl_cons]
    refine le_trans ?_ (ih _)
    by_cases h : s ∈ acc
    · simp [h]
    · simp [h]

/-- A nonempty column has a nonempty list of first-seen distinct
values. -/
theorem uniqueFirstSeen_ne_nil {l : List String} (h : l ≠ []) :
    uniqueFirstSeen l ≠ [] := by
  cases l with
  | nil => exact absurd rfl h
  | cons x xs =>
    rw [uniqueFirstSeen, List.foldl_cons]
    have hstep : (if x ∈ ([] : List String) then ([] : List String) else [] ++ [x]) = [x] := by
      simp
    rw [hstep]
    intro hnil
    have hlen := uniqueFirstSeen_aux_length xs [x]
    rw [hnil] at hlen
    simp at hlen

/-- Claim C6: for a product group with at least one row, the winner
reported by the loop of src lines 906-914 is the first-seen supplier
among those with the minimum post-tax total `subtotal * (1 + tax/100)`:
it appears in the first-seen supplier list, every supplier listed before
it has a strictly larger total, and no supplier has a smaller total. -/
theorem winner_supplier_first_seen_min (rows : List Row) (tax : ℚ)
    (hrows : rows ≠ []) :
    ∃ l1 l2,
      uniqueFirstSeen (rows.map Row.supplier)
          = l1 ++ winner_supplier rows tax :: l2 ∧
      (∀ s ∈ l1,
        supplierTotal rows tax (winner_supplier rows tax) < supplierTotal rows tax s) ∧
      (∀ s ∈ uniqueFirstSeen (rows.map Row.supplier),
        supplierTotal rows tax (winner_supplier rows tax) ≤ supplierTotal rows tax s) := by
  have hmap : rows.map Row.supplier ≠ [] := by
    intro hx
    exact hrows (List.map_eq_nil_iff.mp hx)
  have hne : uniqueFirstSeen (rows.map Row.supplier) ≠ [] :=
    uniqueFirstSeen_ne_nil hmap
  cases hu : uniqueFirstSeen (rows.map Row.supplier) with
  | nil => exact absurd hu hne
  | cons u us =>
    have hw : winner_supplier rows tax
        = winnerLoop (supplierTotal rows tax) u
            (some (supplierTotal rows tax u)) us := by
      rw [winner_supplier, hu, winnerLoop_cons_none]
    obtain ⟨l1, l2, hdec, hstrict, hle⟩ :=
      winnerLoop_invariant (supplierTotal rows tax) us u
    refine ⟨l1, l2, ?_, ?_, ?_⟩
    · rw [hw]
      exact hdec
    · intro s hs
      rw [hw]
      exact hstrict s hs
    · intro s hs
      rw [hw]
      exact hle s hs

/-- Witness for the C6 theorem: two suppliers with totals 110 and 99 at
tax 10, so `SupB` wins. -/
theorem winner_supplier_first_seen_min_witness :
    storeW6 ≠ [] ∧
    (∃ l1 l2,
      uniqueFirstSeen (storeW6.map Row.supplier)
          = l1 ++ winner_supplier storeW6 10 :: l2 ∧
      (∀ s ∈ l1,
        supplierTotal storeW6 10 (winner_supplier storeW6 10)
          < supplierTotal storeW6 10 s) ∧
      (∀ s ∈ uniqueFirstSeen (storeW6.map Row.supplier),
        supplierTotal storeW6 10 (winner_supplier storeW6 10)
          ≤ supplierTotal storeW6 10 s)) :=
  ⟨by decide, winner_supplier_first_seen_min storeW6 10 (by decide)⟩

/-! ### Claim C7 -/

/-- Claim C7 counterexample: row `b` is the only Item of its product
group `C2|PL`, hence the first row of its sibling set, yet
`Reorder(b, "up")` changes its `_order` from 1 to 0 (and `a`'s from 0 to
1), because the code swaps by DataFrame position, not within sibling
sets. -/
theorem reorder_up_moves_first_sibling :
    ((reorder_row storeC7 "b" "up").find? (fun r => r.id == "b")).map Row.order
        = some 0 ∧
    (storeC7.find? (fun r => r.id == "b")).map Row.order = some 1 ∧
    (storeC7.filter (fun r => r.group == "C2|PL" && r.type == "item")).length = 1 := by
  decide

/-- Claim C7 (amended): on a store whose `_order` column is already the
positional range `0..n-1`, `Reorder` with `"up"` on the row found at
positional index 0, or with `"down"` on the row found at the last
positional index, returns the store completely unchanged (so no `_order`
value changes). -/
theorem reorder_row_positional_bounds (df : List Row) (rowId : String)
    (hcanon : df.map Row.order = List.range df.length) :
    (firstIdx (fun r => r.id == rowId) df = some 0 →
      reorder_row df rowId "up" = df) ∧
    (firstIdx (fun r => r.id == rowId) df = some (df.length - 1) →
      reorder_row df rowId "down" = df) := by
  have hself : reassignOrder df = df := reassignOrder_eq_self df hcanon
  constructor
  · intro hf
    rw [reorder_row_of_firstIdx_some df rowId "up" 0 hf]
    rw [if_neg (fun hcontra => Nat.lt_irrefl 0 hcontra.2)]
    rw [if_neg (fun hcontra => absurd hcontra.1 (by decide))]
    exact hself
  · intro hf
    rw [reorder_row_of_firstIdx_some df rowId "down" (df.length - 1) hf]
    rw [if_neg (fun hcontra => absurd hcontra.1 (by decide))]
    rw [if_neg (fun hcontra => absurd hcontra.2 (by omega))]
    exact hself

/-- Witness for the amended C7 theorem at a two-row store with
positional `_order`. -/
theorem reorder_row_positional_bounds_witness :
    storeW7.map Row.order = List.range storeW7.length ∧
    firstIdx (fun r => r.id == "a") storeW7 = some 0 ∧
    reorder_row storeW7 "a" "up" = storeW7 ∧
    firstIdx (fun r => r.id == "b") storeW7 = some (storeW7.length - 1) ∧
    reorder_row storeW7 "b" "down" = storeW7 :=
  ⟨by decide, by decide,
    (reorder_row_positional_bounds storeW7 "a" (by decide)).1 (by decide),
    by decide,
    (reorder_row_positional_bounds storeW7 "b" (by decide)).2 (by decide)⟩

/-! ### Claim C8 -/

/-- Claim C8 counterexample: the store's only row has `_order = 5`;
`delete_row` with an id not present removes nothing but still rewrites
`_order` positionally to 0, so the returned store is not equal to the
input in every field. -/
theorem delete_row_missing_id_changes_order :
    (∀ r ∈ storeC8, r.id ≠ "zz") ∧
    delete_row storeC8 "zz" ≠ storeC8 ∧
    (delete_row storeC8 "zz").map Row.order = [0] ∧
    storeC8.map Row.order = [5] := by decide

/-- Claim C8 (amended): with a target id absent from the store,
`reorder_row`, `convert_type` and `spread_row` return the store unchanged
in every row and field; `delete_row` removes no row but rewrites `_order`
to the positional range, so it too returns the store unchanged exactly
when `_order` already was `0..n-1`. -/
theorem missing_id_noop (df : List Row) (rowId direction : String)
    (targetIds : List String) (hmiss : ∀ r ∈ df, r.id ≠ rowId) :
    reorder_row df rowId direction = df ∧
    convert_type df rowId = df ∧
    spread_row df rowId targetIds = df ∧
    delete_row df rowId = reassignOrder df ∧
    (df.map Row.order = List.range df.length → delete_row df rowId = df) := by
  have hb : ∀ r ∈ df, (r.id == rowId) = false := by
    intro r hr
    rw [beq_eq_false_iff_ne]
    exact hmiss r hr
  have hnone : firstIdx (fun r => r.id == rowId) df = none := firstIdx_eq_none hb
  have hfind : df.find? (fun r => r.id == rowId) = none := by
    rw [List.find?_eq_none]
    intro x hx
    simp [hb x hx]
  have hfil : df.filter (fun r => r.id != rowId) = df := by
    rw [List.filter_eq_self]
    intro a ha
    simp [bne, hb a ha]
  refine ⟨?_, ?_, ?_, ?_, ?_⟩
  · unfold reorder_row
    rw [hnone]
  · unfold convert_type
    rw [hnone]
  · unfold spread_row
    rw [hfind]
  · rw [delete_row, hfil]
  · intro hcanon
    rw [delete_row, hfil]
    exact reassignOrder_eq_self df hcanon

/-- Witness for the amended C8 theorem at a one-row store with positional
`_order`. -/
theorem missing_id_noop_witness :
    (∀ r ∈ storeW8, r.id ≠ "zz") ∧
    (reorder_row storeW8 "zz" "up" = storeW8 ∧
      convert_type storeW8 "zz" = storeW8 ∧
      spread_row storeW8 "zz" ["a"] = storeW8 ∧
      delete_row storeW8 "zz" = reassignOrder storeW8 ∧
      (storeW8.map Row.order = List.range storeW8.length →
        delete_row storeW8 "zz" = storeW8)) :=
  ⟨by decide, missing_id_noop storeW8 "zz" "up" ["a"] (by decide)⟩

/-! ### Claim C9 -/

/-- Claim C9 counterexample: `reorder_row` targeting an id absent from
the store returns before the `_order` rewrite, so the stale `_order = 7`
survives — the claimed unconditional reindexing fails for such calls. -/
theorem reorder_missing_id_keeps_orders :
    (∀ r ∈ storeC9, r.id ≠ "zz") ∧
    (reorder_row storeC9 "zz" "up").map Row.order
        ≠ List.range (reorder_row storeC9 "zz" "up").length := by decide

/-- Claim C9 (amended): after every `delete_row` call, and after every
`reorder_row` call whose target id is present in the store, the `_order`
values are exactly `0..n-1` in row-position order, regardless of the
`_order` values before the call. -/
theorem order_reindex_after_mutation (df : List Row) (rowId direction : String) :
    (delete_row df rowId).map Row.order
        = List.range (delete_row df rowId).length ∧
    ((∃ r ∈ df, r.id = rowId) →
      (reorder_row df rowId direction).map Row.order
          = List.range (reorder_row df rowId direction).length) := by
  constructor
  · rw [delete_row]
    exact reassignOrder_canonical _
  · rintro ⟨r, hr, hid⟩
    obtain ⟨i, hi⟩ := firstIdx_id_isSome hr hid
    rw [reorder_row_of_firstIdx_some df rowId direction i hi]
    exact reassignOrder_canonical _

/-- Witness for the amended C9 theorem at a store whose `_order` values
start out stale (both 3). -/
theorem order_reindex_after_mutation_witness :
    (∃ r ∈ storeW9, r.id = "a") ∧
    (reorder_row storeW9 "a" "up").map Row.order
        = List.range (reorder_row storeW9 "a" "up").length :=
  ⟨by decide, (order_reindex_after_mutation storeW9 "a" "up").2 (by decide)⟩

/-! ### Claim C10 -/

/-- Claim C10: for an id present in the store, `convert_type` returns the
store with only the first matching row replaced, and that row differs
only in its `type` field, which toggles `"item"` to `"subitem"` and
anything else (in particular `"subitem"`) to `"item"`; `_parentId`,
`_order` and all remaining fields and rows are untouched. -/
theorem convert_type_set_form (df : List Row) (rowId : String) (i : Nat) (r : Row)
    (hfind : firstIdx (fun r => r.id == rowId) df = some i)
    (hget : df.get? i = some r) :
    r.id = rowId ∧
    convert_type df rowId
        = df.set i { r with type := if r.type = "item" then "subitem" else "item" } := by
  obtain ⟨r', hget', hp'⟩ := firstIdx_some hfind
  rw [hget] at hget'
  injection hget' with he
  subst he
  refine ⟨beq_iff_eq.mp hp', ?_⟩
  unfold convert_type
  simp only [hfind, hget]

/-- Witness for the C10 theorem at a concrete store whose targeted row is
a subitem (toggled back to an item). -/
theorem convert_type_set_form_witness :
    firstIdx (fun r => r.id == "p") storeW10 = some 0 ∧
    storeW10.get? 0 = some w10row ∧
    (w10row.id = "p" ∧
      convert_type storeW10 "p"
          = storeW10.set 0
              { w10row with
                type := if w10row.type = "item" then "subitem" else "item" }) :=
  ⟨by decide, by decide,
    convert_type_set_form storeW10 "p" 0 w10row (by decide) (by decide)⟩

end PriceAnalysis
